import Mathlib

/-!
Verification of the multi-agent task-pipeline orchestrator in
`src/msk_io/control/multi_agent_harmonizer.py` against its specification.

The embedding models Python values flowing through the pipeline context as an
inductive `Value` type, the parameter-resolution loop of
`Agent.execute_instruction` (lines 37-68 of the module), the context merge of
`MultiAgentHarmonizer.run_task_pipeline` (lines 421-453), and the
instruction-by-instruction orchestration loop (lines 399-498).

`msk_io.schema.base` (the `TaskStatus` and `PipelineStatus` classes) is not
present in the source tree; those definitions are modelled from the spec and
are marked as such in their doc comments.
-/

namespace Harmonizer

/-- Canonical structured-record types deserialized into the pipeline context
at `run_task_pipeline` lines 426-451: `RetrievedDataInfo`,
`ImageSegmentationResult`, `LLMAnalysisResult`, `DiagnosticReport`. -/
inductive RecordType where
  | retrievedDataInfo
  | imageSegmentationResult
  | llmAnalysisResult
  | diagnosticReport
deriving DecidableEq, Repr

/-- Python values stored in instruction parameters and in the pipeline
context.  `vdict` models a `dict` (association list, unique keys by
construction of `dict`), `vlist` a `list`.  `validated ty raw` models a
pydantic model instance of type `ty` produced by `model_validate(raw)`; such
an instance is neither a `dict` nor a `list` (`MSKIOBaseModel` subclasses
pydantic `BaseModel`, not `dict`), which matters for path resolution.
Pydantic validation is modelled as total typed wrapping; its raw payload is
retained so that the fields of the record remain observable. -/
inductive Value where
  | vnone
  | vbool (b : Bool)
  | vint (n : Int)
  | vstr (s : String)
  | vlist (xs : List Value)
  | vdict (fields : List (String × Value))
  | validated (ty : RecordType) (raw : Value)

/-- A pipeline context or parameter mapping: a string-keyed association list
modelling a Python `dict` (first match wins, as keys are unique in a dict). -/
abbrev Ctx := List (String × Value)

/-- Python `key in d` followed by `d[key]` on a dict: first matching entry. -/
def dictLookup : List (String × Value) → String → Option Value
  | [], _ => none
  | kv :: rest, k => if kv.1 = k then some kv.2 else dictLookup rest k

/-- Digit-string parser: accumulates the value of a list of ASCII digits,
failing on any non-digit.  Models Python `part.isdigit()` guarding
`int(part)` (ASCII digits; the claims use only ASCII paths). -/
def parseDigitsGo : List Char → Nat → Option Nat
  | [], acc => some acc
  | c :: cs, acc =>
    if c.isDigit then parseDigitsGo cs (acc * 10 + (c.toNat - 48)) else none

/-- Models `part.isdigit() and int(part)`: `some n` exactly when the string is
a nonempty run of digits. -/
def parseIndex (s : String) : Option Nat :=
  match s.toList with
  | [] => none
  | c :: cs => parseDigitsGo (c :: cs) 0

/-- The path walk of `Agent.execute_instruction` lines 43-60: each component
is looked up as a mapping key when the current value is a dict, or as a
non-negative in-range index when the current value is a list; every other
case raises `KeyError`, modelled by `Except.error` carrying the offending
component. -/
def resolvePathParts : List String → Value → Except String Value
  | [], current => Except.ok current
  | part :: rest, Value.vdict fields =>
    match dictLookup fields part with
    | some v => resolvePathParts rest v
    | none => Except.error part
  | part :: rest, Value.vlist xs =>
    match parseIndex part with
    | some n =>
      if h : n < xs.length then resolvePathParts rest (xs.get ⟨n, h⟩)
      else Except.error part
    | none => Except.error part
  | part :: _, _ => Except.error part

/-- Accumulator for `splitPath`: collects the current component in reverse. -/
def splitPathGo : List Char → List Char → List String
  | [], acc => [String.mk acc.reverse]
  | c :: cs, acc =>
    if c = '.' then String.mk acc.reverse :: splitPathGo cs []
    else splitPathGo cs (c :: acc)

/-- Models Python `path.split(".")` at line 40: splits on every dot, keeping
empty components, and maps the empty string to `[""]`. -/
def splitPath (s : String) : List String := splitPathGo s.toList []

/-- Detects the reference marker of lines 39-40: a dict containing the key
`$from_context`.  The source calls `.split(".")` on the stored path, so the
marker carries a string; a non-string path would raise `AttributeError` in
Python, a case no repository marker exercises, and the model treats such a
dict as a non-reference value. -/
def isMarker (v : Value) : Option String :=
  match v with
  | Value.vdict fields =>
    match dictLookup fields "$from_context" with
    | some (Value.vstr path) => some path
    | _ => none
  | _ => none

/-- Resolution of one parameter value, lines 39-68: a reference marker walks
its dotted path from the full context dict; an unresolvable component is a
soft failure substituting the original marker (the `except (KeyError,
IndexError)` handler at line 62); non-marker values pass through unchanged. -/
def resolveParamValue (ctx : Ctx) (v : Value) : Value :=
  match isMarker v with
  | some path =>
    match resolvePathParts (splitPath path) (Value.vdict ctx) with
    | Except.ok r => r
    | Except.error _ => v
  | none => v

/-- The parameter-resolution loop of lines 37-68, applied to every entry of
`instruction.parameters` in order. -/
def resolveParameters (ctx : Ctx) (params : Ctx) : Ctx :=
  params.map (fun kv => (kv.1, resolveParamValue ctx kv.2))

/-- Shorthand for a context-reference marker value. -/
def marker (path : String) : Value :=
  Value.vdict [("$from_context", Value.vstr path)]

/-- The status literal of `AgentResponse` in
`src/msk_io/schema/task_definitions.py` line 25:
`Literal["SUCCESS", "FAILED", "PENDING"]`. -/
inductive RespStatus where
  | SUCCESS
  | FAILED
  | PENDING
deriving DecidableEq, Repr

/-- Model of `AgentResponse` from `schema/task_definitions.py` lines 19-28.  The
schema declares `output_data` as `Optional`; every response the harmonizer
module constructs (lines 74-79 and 85-91) carries a dict, and the orchestrator
iterates `response.output_data.items()` unconditionally, so the model carries
the mapping directly.  `response_id` and `timestamp` are never consulted by
the orchestrator and are omitted. -/
structure AgentResponse where
  instruction_id : String
  agent_name : String
  status : RespStatus
  output_data : Ctx
  error_message : Option String

/-- Model of `AgentInstruction` from `schema/task_definitions.py` lines 9-16.
`target_agent` is `Optional[str]`. -/
structure AgentInstruction where
  instruction_id : String
  command : String
  parameters : Ctx
  target_agent : Option String
  priority : Int

/-- Model of `TaskDefinition` from `schema/task_definitions.py` lines 31-40. -/
structure TaskDefinition where
  task_id : String
  task_name : String
  description : Option String
  required_inputs : List String
  output_type : Option String
  sequence_of_instructions : List AgentInstruction
  dependencies : List String

/-- Modelled from the spec: the per-instruction status of
`msk_io.schema.base.TaskStatus`, a module absent from the source tree.  The
spec declares the progression PENDING → IN_PROGRESS → COMPLETED | FAILED. -/
inductive TaskState where
  | PENDING
  | IN_PROGRESS
  | COMPLETED
  | FAILED
deriving DecidableEq, Repr

/-- Structured error detail stored in a `TaskStatus`: the orchestrator stores
either the failing agent response (line 461) or an exception message and
class name (line 477). -/
inductive ErrorDetails where
  | agentResponse (response : AgentResponse)
  | exception (message ty : String)

/-- Modelled from the spec: `msk_io.schema.base.TaskStatus` (absent from the
source tree) — instruction id, display name, status, message, structured
error detail; timestamps carry no behaviour and are omitted. -/
structure TaskStatus where
  task_id : String
  task_name : String
  status : TaskState
  message : Option String
  error_details : Option ErrorDetails

/-- The aggregate state machine of the spec:
RUNNING → COMPLETED_SUCCESS | COMPLETED_WITH_ERRORS | FAILED. -/
inductive OverallState where
  | RUNNING
  | COMPLETED_SUCCESS
  | COMPLETED_WITH_ERRORS
  | FAILED
deriving DecidableEq, Repr

/-- Modelled from the spec: `msk_io.schema.base.PipelineStatus` (absent from
the source tree) — run id, overall status, ordered TaskStatus list, optional
fatal error. -/
structure PipelineStatus where
  pipeline_id : String
  overall_status : OverallState
  overall_message : String
  tasks_status : List TaskStatus
  fatal_error : Option ErrorDetails

/-- Modelled from the spec: `PipelineStatus.add_task_status` (absent from the
source tree).  A status for a new instruction is appended to the ordered
list; re-adding a status whose instruction already has an entry replaces that
entry.  This reconciles the two call sites of `run_task_pipeline` (lines 405
and 490, where line 490 re-adds the very object appended at line 405) with
both the per-instruction list of the spec and the in-place mutation of the
Python object, which is visible through the list alias. -/
def addTaskStatus (ps : PipelineStatus) (ts : TaskStatus) : PipelineStatus :=
  if ps.tasks_status.any (fun t => t.task_id = ts.task_id) then
    { ps with tasks_status :=
        ps.tasks_status.map (fun t => if t.task_id = ts.task_id then ts else t) }
  else
    { ps with tasks_status := ps.tasks_status ++ [ts] }

/-- Modelled from the spec: `TaskStatus.update_status` (absent from the
source tree) — sets status, message and structured error detail. -/
def updateStatus (ts : TaskStatus) (st : TaskState) (message : Option String)
    (errorDetails : Option ErrorDetails) : TaskStatus :=
  { ts with status := st, message := message, error_details := errorDetails }

/-- Modelled from the spec: `PipelineStatus.finalize_pipeline` (absent from
the source tree) — sets the terminal overall status, message and optional
fatal error. -/
def finalizePipeline (ps : PipelineStatus) (st : OverallState) (message : String)
    (fatalError : Option ErrorDetails) : PipelineStatus :=
  { ps with
    overall_status := st
    overall_message := message
    fatal_error := fatalError }

/-- Outcome of one call to an agent's `execute_instruction`: a returned
`AgentResponse`, or an exception escaping the call (message and class name).
Agents are the external collaborators of the spec; the orchestrator is
verified for every behaviour. -/
inductive AgentOutcome where
  | responds (response : AgentResponse)
  | raises (message ty : String)

/-- Behaviour of the agent registry: the outcome of dispatching an
instruction to the named agent against the current pipeline context. -/
def AgentBehavior : Type :=
  String → AgentInstruction → Ctx → AgentOutcome

/-- Record of one agent invocation performed by the orchestrator (line 417):
which agent was called, for which instruction, and the pipeline context
passed to it. -/
structure Invocation where
  agent : String
  instruction_id : String
  context : Ctx

/-- Result of a pipeline run: the returned `PipelineStatus` together with the
final pipeline context and the ordered record of agent invocations. -/
structure RunResult where
  pipeline_status : PipelineStatus
  final_context : Ctx
  invocations : List Invocation

/-- Python `f"{instruction.target_agent}"` on an `Optional[str]`. -/
def optStr : Option String → String
  | some s => s
  | none => "None"

/-- The `TaskStatus` created at lines 400-404: IN_PROGRESS, named
`f"{command} by {target_agent}"`. -/
def inProgressTS (i : AgentInstruction) : TaskStatus :=
  { task_id := i.instruction_id
    task_name := i.command ++ " by " ++ optStr i.target_agent
    status := TaskState.IN_PROGRESS
    message := none
    error_details := none }

/-- The `TaskStatus` after the success update at lines 422-424. -/
def completedTS (i : AgentInstruction) : TaskStatus :=
  updateStatus (inProgressTS i) TaskState.COMPLETED
    (some "Instruction completed successfully.") none

/-- The `TaskStatus` after the reported-failure update at lines 458-462:
FAILED with the response's error message and the response preserved in the
error details. -/
def failedRespTS (i : AgentInstruction) (r : AgentResponse) : TaskStatus :=
  updateStatus (inProgressTS i) TaskState.FAILED r.error_message
    (some (ErrorDetails.agentResponse r))

/-- The `TaskStatus` after the exception update at lines 474-478. -/
def failedExcTS (i : AgentInstruction) (msg ty : String) : TaskStatus :=
  updateStatus (inProgressTS i) TaskState.FAILED
    (some ("Unexpected error: " ++ msg))
    (some (ErrorDetails.exception msg ty))

/-- The typed reconstruction applied during the context merge, lines 425-453:
the four well-known keys are deserialized into their canonical
structured-record type (pydantic `model_validate`, modelled as total typed
wrapping); every other key stores the raw value. -/
def reconstructValue (k : String) (v : Value) : Value :=
  if k = "retrieval_info" then
    Value.validated RecordType.retrievedDataInfo v
  else if k = "segmentation_result" then
    Value.validated RecordType.imageSegmentationResult v
  else if k = "llm_analysis_result" then
    Value.validated RecordType.llmAnalysisResult v
  else if k = "report_summary" then
    Value.validated RecordType.diagnosticReport v
  else v

/-- Python dict assignment `pipeline_context[key] = value`: overwrite the
existing entry for the key, or append a new one. -/
def ctxSet (ctx : Ctx) (k : String) (v : Value) : Ctx :=
  match ctx with
  | [] => [(k, v)]
  | kv :: rest => if kv.1 = k then (k, v) :: rest else kv :: ctxSet rest k v

/-- Lookup in the pipeline context (Python dict access). -/
def ctxLookup (ctx : Ctx) (k : String) : Option Value := dictLookup ctx k

/-- The keys of the pipeline context. -/
def ctxKeys (ctx : Ctx) : List String := ctx.map Prod.fst

/-- The merge loop of lines 425-453: every key of a successful response's
`output_data` is written into the pipeline context, after typed
reconstruction of the well-known keys. -/
def mergeOutput (ctx : Ctx) (output : Ctx) : Ctx :=
  output.foldl (fun c kv => ctxSet c kv.1 (reconstructValue kv.1 kv.2)) ctx

/-- The `except Exception` branch at lines 473-488: the current task status
is set FAILED with the exception detail, the pipeline is finalized FAILED,
and the run returns immediately.  Reached both by exceptions escaping the
agent call and by the `AgentOrchestrationError` raised at lines 411-414 for
an unknown target agent. -/
def exceptionStep (ps1 : PipelineStatus) (i : AgentInstruction) (ctx : Ctx)
    (inv : List Invocation) (msg ty : String) : RunResult :=
  let ts1 := failedExcTS i msg ty
  let ps2 := addTaskStatus ps1 ts1
  { pipeline_status := finalizePipeline ps2 OverallState.FAILED
      ("Pipeline failed critically during task " ++ i.command ++ ": " ++ msg)
      ts1.error_details
    final_context := ctx
    invocations := inv }

/-- The instruction loop of `run_task_pipeline`, lines 399-498, over the
remaining instructions, the pipeline status so far, the pipeline context and
the invocation record.  Per instruction: create an IN_PROGRESS status and add
it (lines 400-405); an unknown target agent raises
`AgentOrchestrationError`, caught by the `except` at line 473 (FAILED,
return); otherwise the agent is invoked; a SUCCESS response completes the
task and merges its outputs (lines 421-456); any other response fails the
task and finalizes COMPLETED_WITH_ERRORS (lines 457-471); an escaping
exception finalizes FAILED (lines 473-488).  An exhausted loop finalizes
COMPLETED_SUCCESS (lines 492-494). -/
def runLoop (registry : List String) (behave : AgentBehavior) :
    List AgentInstruction → PipelineStatus → Ctx → List Invocation → RunResult
  | [], ps, ctx, inv =>
    { pipeline_status := finalizePipeline ps OverallState.COMPLETED_SUCCESS
        "All pipeline tasks completed successfully." none
      final_context := ctx
      invocations := inv }
  | instruction :: rest, ps, ctx, inv =>
    let ps1 := addTaskStatus ps (inProgressTS instruction)
    match instruction.target_agent with
    | none =>
      exceptionStep ps1 instruction ctx inv
        ("Target agent " ++ optStr instruction.target_agent ++ " not found.")
        "AgentOrchestrationError"
    | some a =>
      if a ∈ registry then
        let inv1 := inv ++
          [{ agent := a
             instruction_id := instruction.instruction_id
             context := ctx }]
        match behave a instruction ctx with
        | AgentOutcome.responds r =>
          if r.status = RespStatus.SUCCESS then
            let ps2 := addTaskStatus ps1 (completedTS instruction)
            runLoop registry behave rest ps2 (mergeOutput ctx r.output_data) inv1
          else
            let ts1 := failedRespTS instruction r
            let ps2 := addTaskStatus ps1 ts1
            { pipeline_status := finalizePipeline ps2
                OverallState.COMPLETED_WITH_ERRORS
                ("Pipeline completed with errors. Task " ++
                  instruction.command ++ " failed.")
                ts1.error_details
              final_context := ctx
              invocations := inv1 }
        | AgentOutcome.raises msg ty =>
          exceptionStep ps1 instruction ctx inv1 msg ty
      else
        exceptionStep ps1 instruction ctx inv
          ("Target agent " ++ a ++ " not found.") "AgentOrchestrationError"

/-- The `PipelineStatus` constructed at lines 388-392: RUNNING, empty task
list. -/
def initialPipelineStatus (td : TaskDefinition) : PipelineStatus :=
  { pipeline_id := td.task_id
    overall_status := OverallState.RUNNING
    overall_message := "Starting pipeline for task: " ++ td.task_name
    tasks_status := []
    fatal_error := none }

/-- Model of `MultiAgentHarmonizer.run_task_pipeline`, lines 385-498: runs the
instruction loop from a fresh RUNNING pipeline status and an empty pipeline
context (line 393). -/
def runTaskPipeline (registry : List String) (behave : AgentBehavior)
    (td : TaskDefinition) : RunResult :=
  runLoop registry behave td.sequence_of_instructions
    (initialPipelineStatus td) [] []

/-- The agent registry constructed in `MultiAgentHarmonizer.__init__`,
lines 370-376. -/
def defaultRegistry : List String :=
  ["retrieval", "image_processing", "llm_inference", "semantic_indexing",
   "reporting"]

/-- A Python exception: message and class name. -/
structure PyError where
  message : String
  ty : String

/-- Model of `Agent.execute_instruction`, lines 28-91: resolve every parameter against
the pipeline context, call `_process_command`, wrap a normal return in a
SUCCESS response, and convert any raised exception into a FAILED response
with the error message and `{"error_type": class name}` as output (lines
80-91).  `_process_command` of the concrete agent is passed as a function
from command, resolved parameters and context to a result dict or a raised
exception. -/
def executeInstruction (agentName : String)
    (processCommand : String → Ctx → Ctx → Except PyError Ctx)
    (instruction : AgentInstruction) (ctx : Ctx) : AgentResponse :=
  let resolved := resolveParameters ctx instruction.parameters
  match processCommand instruction.command resolved ctx with
  | Except.ok data =>
    { instruction_id := instruction.instruction_id
      agent_name := agentName
      status := RespStatus.SUCCESS
      output_data := data
      error_message := none }
  | Except.error e =>
    { instruction_id := instruction.instruction_id
      agent_name := agentName
      status := RespStatus.FAILED
      output_data := [("error_type", Value.vstr e.ty)]
      error_message := some e.message }

/-- The names bound at module level in
`src/msk_io/control/multi_agent_harmonizer.py`, lines 1-17: the imports
`asyncio`, `json`, `Any`, the `msk_io` imports, and the module logger.  The
name `os` is not among them. -/
def harmonizerModuleGlobals : List String :=
  ["asyncio", "json", "Any", "AgentOrchestrationError", "ProcessingError",
   "PipelineStatus", "TaskStatus", "DiagnosticReport", "AgentInstruction",
   "AgentResponse", "TaskDefinition", "handle_errors",
   "log_method_entry_exit", "get_logger", "logger"]

/-- Python name resolution against the module globals: an unbound name
raises `NameError`. -/
def resolveGlobalName (n : String) : Except PyError Unit :=
  if n ∈ harmonizerModuleGlobals then Except.ok ()
  else Except.error { message := "name " ++ n ++ " is not defined", ty := "NameError" }

/-- Model of `ReportingAgent._process_command`, lines 254-362.  For the command
GENERATE_DIAGNOSTIC_REPORT: `pre` stands for the outcome of lines 258-333
(parameter validation, template fetch, LLM call, and the JSON parse whose
`JSONDecodeError` arm still builds a fallback report) — any exception there
propagates, and every non-raising path continues to the report-path
construction at line 338, which evaluates the module-level name `os`
(`os.path.join`).  Lines 341-360, the file write and the success return, are
reachable only past that name lookup; their result is modelled by a fixed
dict because the lookup never succeeds.  Any other command raises
`ValueError` (line 362). -/
def reportingProcessCommand (pre : Except PyError Unit) (command : String)
    (_resolved : Ctx) (_ctx : Ctx) : Except PyError Ctx :=
  if command = "GENERATE_DIAGNOSTIC_REPORT" then do
    pre
    resolveGlobalName "os"
    Except.ok [("report_path", Value.vstr "report.json"),
               ("report_summary", Value.vdict [])]
  else
    Except.error { message := "Unknown command for ReportingAgent: " ++ command
                   ty := "ValueError" }

/-- Adding a task status whose id is fresh appends it. -/
lemma addTaskStatus_fresh (ps : PipelineStatus) (ts : TaskStatus)
    (h : ∀ t ∈ ps.tasks_status, t.task_id ≠ ts.task_id) :
    addTaskStatus ps ts = { ps with tasks_status := ps.tasks_status ++ [ts] } := by
  unfold addTaskStatus
  have hany : ps.tasks_status.any (fun t => t.task_id = ts.task_id) = false := by
    simp only [List.any_eq_false, decide_eq_true_eq]
    exact h
  simp [hany]

/-- Re-adding a status for the id just appended replaces that entry: the
model of the Python mutation at lines 422-424, 458-462 and 474-478 being
visible through the list alias, together with the re-add at line 490. -/
lemma addTaskStatus_replace_last (ps : PipelineStatus) (ts ts2 : TaskStatus)
    (h : ∀ t ∈ ps.tasks_status, t.task_id ≠ ts.task_id)
    (h2 : ts2.task_id = ts.task_id) :
    addTaskStatus { ps with tasks_status := ps.tasks_status ++ [ts] } ts2
      = { ps with tasks_status := ps.tasks_status ++ [ts2] } := by
  unfold addTaskStatus
  have hany : (ps.tasks_status ++ [ts]).any (fun t => t.task_id = ts2.task_id)
      = true := by
    simp [h2]
  simp only [hany, if_true]
  congr 1
  rw [List.map_append]
  have e1 : List.map (fun t => if t.task_id = ts2.task_id then ts2 else t)
      ps.tasks_status = ps.tasks_status := by
    conv_rhs => rw [← List.map_id ps.tasks_status]
    apply List.map_congr_left
    intro t ht
    simp [h2, h t ht]
  have e2 : List.map (fun t => if t.task_id = ts2.task_id then ts2 else t)
      [ts] = [ts2] := by
    simp [h2]
  rw [e1, e2]

/-- The two `addTaskStatus` calls of one instruction step collapse to
appending the final status of that instruction. -/
lemma addTaskStatus_twice (ps : PipelineStatus) (ts ts2 : TaskStatus)
    (h : ∀ t ∈ ps.tasks_status, t.task_id ≠ ts.task_id)
    (h2 : ts2.task_id = ts.task_id) :
    addTaskStatus (addTaskStatus ps ts) ts2
      = { ps with tasks_status := ps.tasks_status ++ [ts2] } := by
  rw [addTaskStatus_fresh ps ts h, addTaskStatus_replace_last ps ts ts2 h h2]

/-- One-step equation: exhausted instruction list finalizes COMPLETED_SUCCESS. -/
lemma runLoop_nil (reg : List String) (behave : AgentBehavior)
    (ps : PipelineStatus) (ctx : Ctx) (inv : List Invocation) :
    runLoop reg behave [] ps ctx inv =
      { pipeline_status := finalizePipeline ps OverallState.COMPLETED_SUCCESS
          "All pipeline tasks completed successfully." none
        final_context := ctx
        invocations := inv } := rfl

/-- One-step equation: a SUCCESS response completes the task, merges the
outputs, records the invocation, and continues. -/
lemma runLoop_cons_success (reg : List String) (behave : AgentBehavior)
    (i : AgentInstruction) (rest : List AgentInstruction) (ps : PipelineStatus)
    (ctx : Ctx) (inv : List Invocation) (a : String) (r : AgentResponse)
    (h1 : i.target_agent = some a) (h2 : a ∈ reg)
    (h3 : behave a i ctx = AgentOutcome.responds r)
    (h4 : r.status = RespStatus.SUCCESS) :
    runLoop reg behave (i :: rest) ps ctx inv =
      runLoop reg behave rest
        (addTaskStatus (addTaskStatus ps (inProgressTS i)) (completedTS i))
        (mergeOutput ctx r.output_data)
        (inv ++ [{ agent := a, instruction_id := i.instruction_id,
                   context := ctx }]) := by
  conv_lhs => rw [runLoop]
  simp only [h1, h2, h3, h4, if_true, completedTS]

/-- One-step equation: a non-SUCCESS response fails the task, finalizes
COMPLETED_WITH_ERRORS with the response preserved as fatal error, and
returns. -/
lemma runLoop_cons_reported_failure (reg : List String) (behave : AgentBehavior)
    (i : AgentInstruction) (rest : List AgentInstruction) (ps : PipelineStatus)
    (ctx : Ctx) (inv : List Invocation) (a : String) (r : AgentResponse)
    (h1 : i.target_agent = some a) (h2 : a ∈ reg)
    (h3 : behave a i ctx = AgentOutcome.responds r)
    (h4 : r.status ≠ RespStatus.SUCCESS) :
    runLoop reg behave (i :: rest) ps ctx inv =
      { pipeline_status := finalizePipeline
          (addTaskStatus (addTaskStatus ps (inProgressTS i)) (failedRespTS i r))
          OverallState.COMPLETED_WITH_ERRORS
          ("Pipeline completed with errors. Task " ++ i.command ++ " failed.")
          (failedRespTS i r).error_details
        final_context := ctx
        invocations := inv ++ [{ agent := a, instruction_id := i.instruction_id,
                                 context := ctx }] } := by
  conv_lhs => rw [runLoop]
  simp only [h1, h2, h3, if_true, if_neg h4, failedRespTS]

/-- One-step equation: an exception escaping the agent call fails the task,
finalizes FAILED, and returns. -/
lemma runLoop_cons_raises (reg : List String) (behave : AgentBehavior)
    (i : AgentInstruction) (rest : List AgentInstruction) (ps : PipelineStatus)
    (ctx : Ctx) (inv : List Invocation) (a : String) (msg ty : String)
    (h1 : i.target_agent = some a) (h2 : a ∈ reg)
    (h3 : behave a i ctx = AgentOutcome.raises msg ty) :
    runLoop reg behave (i :: rest) ps ctx inv =
      exceptionStep (addTaskStatus ps (inProgressTS i)) i ctx
        (inv ++ [{ agent := a, instruction_id := i.instruction_id,
                   context := ctx }]) msg ty := by
  conv_lhs => rw [runLoop]
  simp only [h1, h2, h3, if_true]

/-- One-step equation: an unknown target agent raises
`AgentOrchestrationError`, caught by the generic handler, with no agent
invocation recorded. -/
lemma runLoop_cons_unknown_agent (reg : List String) (behave : AgentBehavior)
    (i : AgentInstruction) (rest : List AgentInstruction) (ps : PipelineStatus)
    (ctx : Ctx) (inv : List Invocation) (a : String)
    (h1 : i.target_agent = some a) (h2 : a ∉ reg) :
    runLoop reg behave (i :: rest) ps ctx inv =
      exceptionStep (addTaskStatus ps (inProgressTS i)) i ctx inv
        ("Target agent " ++ a ++ " not found.") "AgentOrchestrationError" := by
  conv_lhs => rw [runLoop]
  simp only [h1, if_neg h2]

/-- An instruction whose target agent is registered and whose dispatch
always returns a SUCCESS response, whatever the context. -/
def SuccessBehavior (reg : List String) (behave : AgentBehavior)
    (i : AgentInstruction) : Prop :=
  ∃ a, i.target_agent = some a ∧ a ∈ reg ∧
    ∀ c, ∃ r, behave a i c = AgentOutcome.responds r ∧
      r.status = RespStatus.SUCCESS

/-- Running a prefix of instructions that all succeed appends one COMPLETED
status per instruction, in declared order, records one invocation per
instruction, and continues with the remaining instructions. -/
lemma runLoop_success_front (reg : List String) (behave : AgentBehavior)
    (pref : List AgentInstruction) :
    ∀ (rest : List AgentInstruction) (ps : PipelineStatus) (ctx : Ctx)
      (inv : List Invocation),
    (pref.map (fun i => i.instruction_id)).Nodup →
    (∀ i ∈ pref, ∀ t ∈ ps.tasks_status, t.task_id ≠ i.instruction_id) →
    (∀ i ∈ pref, SuccessBehavior reg behave i) →
    ∃ ctx2 inv2,
      runLoop reg behave (pref ++ rest) ps ctx inv =
        runLoop reg behave rest
          { ps with tasks_status := ps.tasks_status ++ pref.map completedTS }
          ctx2 (inv ++ inv2) ∧
      inv2.map (fun v => v.instruction_id) =
        pref.map (fun i => i.instruction_id) := by
  induction pref with
  | nil =>
    intro rest ps ctx inv _ _ _
    exact ⟨ctx, [], by simp, by simp⟩
  | cons i pref ih =>
    intro rest ps ctx inv hnodup hfresh hok
    obtain ⟨a, ha, hmem, hresp⟩ := hok i (List.mem_cons_self i pref)
    obtain ⟨r, hr, hrs⟩ := hresp ctx
    have hfreshi : ∀ t ∈ ps.tasks_status, t.task_id ≠ (inProgressTS i).task_id :=
      hfresh i (List.mem_cons_self i pref)
    have hstep := runLoop_cons_success reg behave i (pref ++ rest) ps ctx inv
      a r ha hmem hr hrs
    rw [addTaskStatus_twice ps (inProgressTS i) (completedTS i) hfreshi rfl]
      at hstep
    have hnodup2 : (pref.map (fun j => j.instruction_id)).Nodup :=
      (List.nodup_cons.mp hnodup).2
    have hinotin : i.instruction_id ∉ pref.map (fun j => j.instruction_id) :=
      (List.nodup_cons.mp hnodup).1
    have hfresh2 : ∀ j ∈ pref,
        ∀ t ∈ ps.tasks_status ++ [completedTS i],
          t.task_id ≠ j.instruction_id := by
      intro j hj t ht
      rcases List.mem_append.mp ht with hold | hnew
      · exact hfresh j (List.mem_cons_of_mem i hj) t hold
      · rw [List.mem_singleton.mp hnew]
        intro hcontra
        have hij : i.instruction_id = j.instruction_id := hcontra
        exact hinotin (by rw [hij]
                          exact List.mem_map_of_mem (fun x => x.instruction_id) hj)
    have hok2 : ∀ j ∈ pref, SuccessBehavior reg behave j :=
      fun j hj => hok j (List.mem_cons_of_mem i hj)
    obtain ⟨ctx2, inv2, heq, hids⟩ := ih rest
      { ps with tasks_status := ps.tasks_status ++ [completedTS i] }
      (mergeOutput ctx r.output_data)
      (inv ++ [{ agent := a, instruction_id := i.instruction_id,
                 context := ctx }])
      hnodup2 hfresh2 hok2
    refine ⟨ctx2,
      { agent := a, instruction_id := i.instruction_id,
        context := ctx } :: inv2, ?_, ?_⟩
    · rw [List.cons_append, hstep, heq]
      simp [List.append_assoc]
    · simp [hids]

/-- Status projection of a completed prefix. -/
lemma map_completed_status (l : List AgentInstruction) :
    (l.map completedTS).map (fun t => t.status)
      = List.replicate l.length TaskState.COMPLETED := by
  induction l with
  | nil => rfl
  | cons x xs ihx => simp [ihx, List.replicate_succ, completedTS, updateStatus]

/-- Task ids of a completed prefix are the instruction ids. -/
lemma map_completed_id (l : List AgentInstruction) :
    (l.map completedTS).map (fun t => t.task_id)
      = l.map (fun i => i.instruction_id) := by
  induction l with
  | nil => rfl
  | cons x xs ihx => simp [ihx, completedTS, updateStatus, inProgressTS]

/-- C1: for every TaskDefinition whose instructions all name registered
agents that return SUCCESS responses, `run_task_pipeline` finalizes
COMPLETED_SUCCESS with exactly one COMPLETED TaskStatus per instruction, in
declared instruction order. -/
theorem run_all_success_spec (reg : List String) (behave : AgentBehavior)
    (td : TaskDefinition)
    (hnodup : (td.sequence_of_instructions.map
      (fun i => i.instruction_id)).Nodup)
    (hok : ∀ i ∈ td.sequence_of_instructions, SuccessBehavior reg behave i) :
    (runTaskPipeline reg behave td).pipeline_status.overall_status
        = OverallState.COMPLETED_SUCCESS ∧
    (runTaskPipeline reg behave td).pipeline_status.tasks_status
        = td.sequence_of_instructions.map completedTS ∧
    (runTaskPipeline reg behave td).pipeline_status.tasks_status.length
        = td.sequence_of_instructions.length ∧
    (∀ t ∈ (runTaskPipeline reg behave td).pipeline_status.tasks_status,
        t.status = TaskState.COMPLETED) ∧
    (runTaskPipeline reg behave td).pipeline_status.tasks_status.map
        (fun t => t.task_id)
      = td.sequence_of_instructions.map (fun i => i.instruction_id) := by
  obtain ⟨ctx2, inv2, heq, hids⟩ := runLoop_success_front reg behave
    td.sequence_of_instructions [] (initialPipelineStatus td) [] []
    hnodup
    (by intro i hi t ht; simp [initialPipelineStatus] at ht)
    hok
  rw [List.append_nil] at heq
  have hrun : runTaskPipeline reg behave td =
      runLoop reg behave []
        { initialPipelineStatus td with
          tasks_status := [] ++ td.sequence_of_instructions.map completedTS }
        ctx2 ([] ++ inv2) := by
    rw [runTaskPipeline, heq]
    rfl
  rw [runLoop_nil] at hrun
  refine ⟨?_, ?_, ?_, ?_, ?_⟩
  · rw [hrun]
    rfl
  · rw [hrun]; simp [finalizePipeline, initialPipelineStatus]
  · rw [hrun]; simp [finalizePipeline, initialPipelineStatus]
  · rw [hrun]
    intro t ht
    simp [finalizePipeline, initialPipelineStatus] at ht
    obtain ⟨i, _, hi⟩ := ht
    rw [← hi]
    rfl
  · rw [hrun]
    simp only [finalizePipeline, initialPipelineStatus, List.nil_append]
    exact map_completed_id td.sequence_of_instructions

/-- A behaviour in which every agent returns an empty SUCCESS response. -/
def constSuccessBehavior : AgentBehavior := fun a i _ =>
  AgentOutcome.responds
    { instruction_id := i.instruction_id
      agent_name := a
      status := RespStatus.SUCCESS
      output_data := []
      error_message := none }

/-- A concrete instruction for witnesses. -/
def wInstr (id cmd agent : String) : AgentInstruction :=
  { instruction_id := id
    command := cmd
    parameters := []
    target_agent := some agent
    priority := 0 }

/-- A concrete task definition for witnesses. -/
def wTd (insts : List AgentInstruction) : TaskDefinition :=
  { task_id := "tid"
    task_name := "witness pipeline"
    description := none
    required_inputs := []
    output_type := none
    sequence_of_instructions := insts
    dependencies := [] }

/-- Witness for C1 at a concrete two-instruction pipeline in which every
agent returns SUCCESS. -/
theorem run_all_success_spec_witness :
    (runTaskPipeline defaultRegistry constSuccessBehavior
        (wTd [wInstr "i1" "CMD_A" "retrieval",
              wInstr "i2" "CMD_B" "reporting"])).pipeline_status.overall_status
        = OverallState.COMPLETED_SUCCESS ∧
    (runTaskPipeline defaultRegistry constSuccessBehavior
        (wTd [wInstr "i1" "CMD_A" "retrieval",
              wInstr "i2" "CMD_B" "reporting"])).pipeline_status.tasks_status
        = (wTd [wInstr "i1" "CMD_A" "retrieval",
            wInstr "i2" "CMD_B" "reporting"]).sequence_of_instructions.map
              completedTS ∧
    (runTaskPipeline defaultRegistry constSuccessBehavior
        (wTd [wInstr "i1" "CMD_A" "retrieval",
              wInstr "i2" "CMD_B" "reporting"])).pipeline_status.tasks_status.length
        = (wTd [wInstr "i1" "CMD_A" "retrieval",
            wInstr "i2" "CMD_B" "reporting"]).sequence_of_instructions.length ∧
    (∀ t ∈ (runTaskPipeline defaultRegistry constSuccessBehavior
        (wTd [wInstr "i1" "CMD_A" "retrieval",
              wInstr "i2" "CMD_B" "reporting"])).pipeline_status.tasks_status,
        t.status = TaskState.COMPLETED) ∧
    (runTaskPipeline defaultRegistry constSuccessBehavior
        (wTd [wInstr "i1" "CMD_A" "retrieval",
              wInstr "i2" "CMD_B" "reporting"])).pipeline_status.tasks_status.map
        (fun t => t.task_id)
      = (wTd [wInstr "i1" "CMD_A" "retrieval",
          wInstr "i2" "CMD_B" "reporting"]).sequence_of_instructions.map
            (fun i => i.instruction_id) :=
  run_all_success_spec defaultRegistry constSuccessBehavior
    (wTd [wInstr "i1" "CMD_A" "retrieval", wInstr "i2" "CMD_B" "reporting"])
    (by decide)
    (by
      intro i hi
      simp [wTd] at hi
      rcases hi with h | h <;> rw [h]
      · exact ⟨"retrieval", rfl, by decide, fun c => ⟨_, rfl, rfl⟩⟩
      · exact ⟨"reporting", rfl, by decide, fun c => ⟨_, rfl, rfl⟩⟩)

/-- C2: if instruction k (1-indexed, here the position after `pref`) is the
first whose agent reports FAILED, the run halts there: exactly k TaskStatus
entries, the first k-1 COMPLETED and the k-th FAILED, overall status
COMPLETED_WITH_ERRORS with the failing response preserved as fatal error,
and the agents of the later instructions are never invoked. -/
theorem run_first_reported_failure_spec (reg : List String)
    (behave : AgentBehavior) (pref : List AgentInstruction)
    (iK : AgentInstruction) (rest : List AgentInstruction)
    (td : TaskDefinition)
    (hseq : td.sequence_of_instructions = pref ++ iK :: rest)
    (hnodup : (td.sequence_of_instructions.map
      (fun i => i.instruction_id)).Nodup)
    (hok : ∀ i ∈ pref, SuccessBehavior reg behave i)
    (aK : String) (haK : iK.target_agent = some aK) (hmemK : aK ∈ reg)
    (hfail : ∀ c, ∃ r, behave aK iK c = AgentOutcome.responds r ∧
      r.status = RespStatus.FAILED) :
    ∃ r : AgentResponse, r.status = RespStatus.FAILED ∧
      (runTaskPipeline reg behave td).pipeline_status.overall_status
          = OverallState.COMPLETED_WITH_ERRORS ∧
      (runTaskPipeline reg behave td).pipeline_status.tasks_status
          = pref.map completedTS ++ [failedRespTS iK r] ∧
      (runTaskPipeline reg behave td).pipeline_status.tasks_status.length
          = pref.length + 1 ∧
      (runTaskPipeline reg behave td).pipeline_status.tasks_status.map
          (fun t => t.status)
        = List.replicate pref.length TaskState.COMPLETED
            ++ [TaskState.FAILED] ∧
      (runTaskPipeline reg behave td).pipeline_status.fatal_error
          = some (ErrorDetails.agentResponse r) ∧
      (runTaskPipeline reg behave td).invocations.map
          (fun v => v.instruction_id)
        = (pref ++ [iK]).map (fun i => i.instruction_id) ∧
      (∀ v ∈ (runTaskPipeline reg behave td).invocations,
        v.instruction_id ∉ rest.map (fun i => i.instruction_id)) := by
  have hnodup2 := hnodup
  rw [hseq, List.map_append] at hnodup2
  obtain ⟨hnp, hnr, hdisj⟩ := List.nodup_append.mp hnodup2
  rw [List.map_cons, List.nodup_cons] at hnr
  obtain ⟨hiKnotin, _⟩ := hnr
  obtain ⟨ctx2, inv2, heq, hids⟩ := runLoop_success_front reg behave
    pref (iK :: rest) (initialPipelineStatus td) [] []
    hnp
    (by intro i hi t ht; simp [initialPipelineStatus] at ht)
    hok
  obtain ⟨r, hr, hrs⟩ := hfail ctx2
  have hrs_ne : r.status ≠ RespStatus.SUCCESS := by simp [hrs]
  have hfreshK : ∀ t ∈ ({ initialPipelineStatus td with
      tasks_status := (initialPipelineStatus td).tasks_status
        ++ pref.map completedTS } : PipelineStatus).tasks_status,
      t.task_id ≠ (inProgressTS iK).task_id := by
    intro t ht
    simp [initialPipelineStatus] at ht
    obtain ⟨j, hj, hjt⟩ := ht
    rw [← hjt]
    show (completedTS j).task_id ≠ iK.instruction_id
    have hjid : (completedTS j).task_id = j.instruction_id := rfl
    rw [hjid]
    intro hcontra
    exact hdisj (List.mem_map_of_mem (fun i => i.instruction_id) hj)
      (by rw [hcontra, List.map_cons]; exact List.mem_cons_self _ _)
  have hstep := runLoop_cons_reported_failure reg behave iK rest
    { initialPipelineStatus td with
      tasks_status := (initialPipelineStatus td).tasks_status
        ++ pref.map completedTS }
    ctx2 ([] ++ inv2) aK r haK hmemK hr hrs_ne
  rw [addTaskStatus_twice _ (inProgressTS iK) (failedRespTS iK r) hfreshK rfl]
    at hstep
  have hrun : runTaskPipeline reg behave td =
      { pipeline_status := finalizePipeline
          { initialPipelineStatus td with
            tasks_status := ((initialPipelineStatus td).tasks_status
              ++ pref.map completedTS) ++ [failedRespTS iK r] }
          OverallState.COMPLETED_WITH_ERRORS
          ("Pipeline completed with errors. Task " ++ iK.command ++ " failed.")
          (failedRespTS iK r).error_details
        final_context := ctx2
        invocations := ([] ++ inv2) ++
          [{ agent := aK, instruction_id := iK.instruction_id,
             context := ctx2 }] } := by
    rw [runTaskPipeline, hseq, heq, hstep]
  have hinvids : (runTaskPipeline reg behave td).invocations.map
      (fun v => v.instruction_id)
      = pref.map (fun i => i.instruction_id) ++ [iK.instruction_id] := by
    rw [hrun]
    simp [hids]
  refine ⟨r, hrs, ?_, ?_, ?_, ?_, ?_, ?_, ?_⟩
  · rw [hrun]
    rfl
  · rw [hrun]
    simp [finalizePipeline, initialPipelineStatus]
  · rw [hrun]
    simp [finalizePipeline, initialPipelineStatus]
  · rw [hrun]
    simp only [finalizePipeline, initialPipelineStatus, List.nil_append,
      List.map_append, map_completed_status]
    rfl
  · rw [hrun]
    simp [finalizePipeline, failedRespTS, updateStatus]
  · rw [hinvids, List.map_append]
    rfl
  · intro v hv
    have hvmem := List.mem_map_of_mem (fun w => w.instruction_id) hv
    rw [hinvids] at hvmem
    rcases List.mem_append.mp hvmem with hpre | hk
    · intro hmemrest
      exact hdisj hpre
        (by rw [List.map_cons]; exact List.mem_cons_of_mem _ hmemrest)
    · have hveq : v.instruction_id = iK.instruction_id :=
        List.mem_singleton.mp hk
      rw [hveq]
      exact hiKnotin

/-- C8: if the agent call for the instruction after `pref` raises an
exception rather than returning a response, the current task is set FAILED,
the pipeline is finalized FAILED with the exception detail as fatal error,
and the run returns immediately, so no later instruction executes. -/
theorem run_uncaught_exception_spec (reg : List String)
    (behave : AgentBehavior) (pref : List AgentInstruction)
    (iK : AgentInstruction) (rest : List AgentInstruction)
    (td : TaskDefinition)
    (hseq : td.sequence_of_instructions = pref ++ iK :: rest)
    (hnodup : (td.sequence_of_instructions.map
      (fun i => i.instruction_id)).Nodup)
    (hok : ∀ i ∈ pref, SuccessBehavior reg behave i)
    (aK : String) (haK : iK.target_agent = some aK) (hmemK : aK ∈ reg)
    (hraise : ∀ c, ∃ m t, behave aK iK c = AgentOutcome.raises m t) :
    ∃ msg ty : String,
      (runTaskPipeline reg behave td).pipeline_status.overall_status
          = OverallState.FAILED ∧
      (runTaskPipeline reg behave td).pipeline_status.tasks_status
          = pref.map completedTS ++ [failedExcTS iK msg ty] ∧
      (runTaskPipeline reg behave td).pipeline_status.tasks_status.length
          = pref.length + 1 ∧
      (runTaskPipeline reg behave td).pipeline_status.tasks_status.map
          (fun t => t.status)
        = List.replicate pref.length TaskState.COMPLETED
            ++ [TaskState.FAILED] ∧
      (runTaskPipeline reg behave td).pipeline_status.fatal_error
          = some (ErrorDetails.exception msg ty) ∧
      (runTaskPipeline reg behave td).invocations.map
          (fun v => v.instruction_id)
        = (pref ++ [iK]).map (fun i => i.instruction_id) ∧
      (∀ v ∈ (runTaskPipeline reg behave td).invocations,
        v.instruction_id ∉ rest.map (fun i => i.instruction_id)) := by
  have hnodup2 := hnodup
  rw [hseq, List.map_append] at hnodup2
  obtain ⟨hnp, hnr, hdisj⟩ := List.nodup_append.mp hnodup2
  rw [List.map_cons, List.nodup_cons] at hnr
  obtain ⟨hiKnotin, _⟩ := hnr
  obtain ⟨ctx2, inv2, heq, hids⟩ := runLoop_success_front reg behave
    pref (iK :: rest) (initialPipelineStatus td) [] []
    hnp
    (by intro i hi t ht; simp [initialPipelineStatus] at ht)
    hok
  obtain ⟨msg, ty, hr⟩ := hraise ctx2
  have hfreshK : ∀ t ∈ ({ initialPipelineStatus td with
      tasks_status := (initialPipelineStatus td).tasks_status
        ++ pref.map completedTS } : PipelineStatus).tasks_status,
      t.task_id ≠ (inProgressTS iK).task_id := by
    intro t ht
    simp [initialPipelineStatus] at ht
    obtain ⟨j, hj, hjt⟩ := ht
    rw [← hjt]
    show (completedTS j).task_id ≠ iK.instruction_id
    have hjid : (completedTS j).task_id = j.instruction_id := rfl
    rw [hjid]
    intro hcontra
    exact hdisj (List.mem_map_of_mem (fun i => i.instruction_id) hj)
      (by rw [hcontra, List.map_cons]; exact List.mem_cons_self _ _)
  have hstep := runLoop_cons_raises reg behave iK rest
    { initialPipelineStatus td with
      tasks_status := (initialPipelineStatus td).tasks_status
        ++ pref.map completedTS }
    ctx2 ([] ++ inv2) aK msg ty haK hmemK hr
  rw [exceptionStep] at hstep
  rw [addTaskStatus_twice _ (inProgressTS iK) (failedExcTS iK msg ty)
    hfreshK rfl] at hstep
  have hrun : runTaskPipeline reg behave td =
      { pipeline_status := finalizePipeline
          { initialPipelineStatus td with
            tasks_status := ((initialPipelineStatus td).tasks_status
              ++ pref.map completedTS) ++ [failedExcTS iK msg ty] }
          OverallState.FAILED
          ("Pipeline failed critically during task " ++ iK.command ++ ": "
            ++ msg)
          (failedExcTS iK msg ty).error_details
        final_context := ctx2
        invocations := ([] ++ inv2) ++
          [{ agent := aK, instruction_id := iK.instruction_id,
             context := ctx2 }] } := by
    rw [runTaskPipeline, hseq, heq, hstep]
  have hinvids : (runTaskPipeline reg behave td).invocations.map
      (fun v => v.instruction_id)
      = pref.map (fun i => i.instruction_id) ++ [iK.instruction_id] := by
    rw [hrun]
    simp [hids]
  refine ⟨msg, ty, ?_, ?_, ?_, ?_, ?_, ?_, ?_⟩
  · rw [hrun]
    rfl
  · rw [hrun]
    simp [finalizePipeline, initialPipelineStatus]
  · rw [hrun]
    simp [finalizePipeline, initialPipelineStatus]
  · rw [hrun]
    simp only [finalizePipeline, initialPipelineStatus, List.nil_append,
      List.map_append, map_completed_status]
    rfl
  · rw [hrun]
    simp [finalizePipeline, failedExcTS, updateStatus]
  · rw [hinvids, List.map_append]
    rfl
  · intro v hv
    have hvmem := List.mem_map_of_mem (fun w => w.instruction_id) hv
    rw [hinvids] at hvmem
    rcases List.mem_append.mp hvmem with hpre | hk
    · intro hmemrest
      exact hdisj hpre
        (by rw [List.map_cons]; exact List.mem_cons_of_mem _ hmemrest)
    · have hveq : v.instruction_id = iK.instruction_id :=
        List.mem_singleton.mp hk
      rw [hveq]
      exact hiKnotin

/-- C10: every response whose status is not SUCCESS — including the declared
third status PENDING — is treated exactly as a reported failure: the current
task is set FAILED carrying the response error message, the pipeline is
finalized COMPLETED_WITH_ERRORS, and no later instruction executes. -/
theorem non_success_treated_as_failure_spec (reg : List String)
    (behave : AgentBehavior) (pref : List AgentInstruction)
    (iK : AgentInstruction) (rest : List AgentInstruction)
    (td : TaskDefinition)
    (hseq : td.sequence_of_instructions = pref ++ iK :: rest)
    (hnodup : (td.sequence_of_instructions.map
      (fun i => i.instruction_id)).Nodup)
    (hok : ∀ i ∈ pref, SuccessBehavior reg behave i)
    (aK : String) (haK : iK.target_agent = some aK) (hmemK : aK ∈ reg)
    (hfail : ∀ c, ∃ r, behave aK iK c = AgentOutcome.responds r ∧
      r.status ≠ RespStatus.SUCCESS) :
    ∃ r : AgentResponse, r.status ≠ RespStatus.SUCCESS ∧
      (runTaskPipeline reg behave td).pipeline_status.overall_status
          = OverallState.COMPLETED_WITH_ERRORS ∧
      (runTaskPipeline reg behave td).pipeline_status.tasks_status
          = pref.map completedTS ++ [failedRespTS iK r] ∧
      (failedRespTS iK r).status = TaskState.FAILED ∧
      (failedRespTS iK r).message = r.error_message ∧
      (runTaskPipeline reg behave td).pipeline_status.fatal_error
          = some (ErrorDetails.agentResponse r) ∧
      (runTaskPipeline reg behave td).invocations.map
          (fun v => v.instruction_id)
        = (pref ++ [iK]).map (fun i => i.instruction_id) ∧
      (∀ v ∈ (runTaskPipeline reg behave td).invocations,
        v.instruction_id ∉ rest.map (fun i => i.instruction_id)) := by
  have hnodup2 := hnodup
  rw [hseq, List.map_append] at hnodup2
  obtain ⟨hnp, hnr, hdisj⟩ := List.nodup_append.mp hnodup2
  rw [List.map_cons, List.nodup_cons] at hnr
  obtain ⟨hiKnotin, _⟩ := hnr
  obtain ⟨ctx2, inv2, heq, hids⟩ := runLoop_success_front reg behave
    pref (iK :: rest) (initialPipelineStatus td) [] []
    hnp
    (by intro i hi t ht; simp [initialPipelineStatus] at ht)
    hok
  obtain ⟨r, hr, hrs_ne⟩ := hfail ctx2
  have hfreshK : ∀ t ∈ ({ initialPipelineStatus td with
      tasks_status := (initialPipelineStatus td).tasks_status
        ++ pref.map completedTS } : PipelineStatus).tasks_status,
      t.task_id ≠ (inProgressTS iK).task_id := by
    intro t ht
    simp [initialPipelineStatus] at ht
    obtain ⟨j, hj, hjt⟩ := ht
    rw [← hjt]
    show (completedTS j).task_id ≠ iK.instruction_id
    have hjid : (completedTS j).task_id = j.instruction_id := rfl
    rw [hjid]
    intro hcontra
    exact hdisj (List.mem_map_of_mem (fun i => i.instruction_id) hj)
      (by rw [hcontra, List.map_cons]; exact List.mem_cons_self _ _)
  have hstep := runLoop_cons_reported_failure reg behave iK rest
    { initialPipelineStatus td with
      tasks_status := (initialPipelineStatus td).tasks_status
        ++ pref.map completedTS }
    ctx2 ([] ++ inv2) aK r haK hmemK hr hrs_ne
  rw [addTaskStatus_twice _ (inProgressTS iK) (failedRespTS iK r) hfreshK rfl]
    at hstep
  have hrun : runTaskPipeline reg behave td =
      { pipeline_status := finalizePipeline
          { initialPipelineStatus td with
            tasks_status := ((initialPipelineStatus td).tasks_status
              ++ pref.map completedTS) ++ [failedRespTS iK r] }
          OverallState.COMPLETED_WITH_ERRORS
          ("Pipeline completed with errors. Task " ++ iK.command ++ " failed.")
          (failedRespTS iK r).error_details
        final_context := ctx2
        invocations := ([] ++ inv2) ++
          [{ agent := aK, instruction_id := iK.instruction_id,
             context := ctx2 }] } := by
    rw [runTaskPipeline, hseq, heq, hstep]
  have hinvids : (runTaskPipeline reg behave td).invocations.map
      (fun v => v.instruction_id)
      = pref.map (fun i => i.instruction_id) ++ [iK.instruction_id] := by
    rw [hrun]
    simp [hids]
  refine ⟨r, hrs_ne, ?_, ?_, rfl, rfl, ?_, ?_, ?_⟩
  · rw [hrun]
    rfl
  · rw [hrun]
    simp [finalizePipeline, initialPipelineStatus]
  · rw [hrun]
    simp [finalizePipeline, failedRespTS, updateStatus]
  · rw [hinvids, List.map_append]
    rfl
  · intro v hv
    have hvmem := List.mem_map_of_mem (fun w => w.instruction_id) hv
    rw [hinvids] at hvmem
    rcases List.mem_append.mp hvmem with hpre | hk
    · intro hmemrest
      exact hdisj hpre
        (by rw [List.map_cons]; exact List.mem_cons_of_mem _ hmemrest)
    · have hveq : v.instruction_id = iK.instruction_id :=
        List.mem_singleton.mp hk
      rw [hveq]
      exact hiKnotin

/-- C3: an unknown target agent on the first instruction fails the run
immediately: overall status FAILED, exactly one TaskStatus entry, FAILED,
and no agent is ever invoked. -/
theorem run_unknown_agent_spec (reg : List String) (behave : AgentBehavior)
    (td : TaskDefinition) (i1 : AgentInstruction)
    (rest : List AgentInstruction)
    (hseq : td.sequence_of_instructions = i1 :: rest)
    (a : String) (ha : i1.target_agent = some a) (hnotin : a ∉ reg) :
    (runTaskPipeline reg behave td).pipeline_status.overall_status
        = OverallState.FAILED ∧
    (runTaskPipeline reg behave td).pipeline_status.tasks_status
        = [failedExcTS i1 ("Target agent " ++ a ++ " not found.")
            "AgentOrchestrationError"] ∧
    (runTaskPipeline reg behave td).pipeline_status.tasks_status.length
        = 1 ∧
    (∀ t ∈ (runTaskPipeline reg behave td).pipeline_status.tasks_status,
        t.status = TaskState.FAILED) ∧
    (runTaskPipeline reg behave td).invocations = [] := by
  have hstep := runLoop_cons_unknown_agent reg behave i1 rest
    (initialPipelineStatus td) [] [] a ha hnotin
  rw [exceptionStep] at hstep
  rw [addTaskStatus_twice (initialPipelineStatus td) (inProgressTS i1)
    (failedExcTS i1 ("Target agent " ++ a ++ " not found.")
      "AgentOrchestrationError")
    (by intro t ht; simp [initialPipelineStatus] at ht) rfl] at hstep
  have hrun : runTaskPipeline reg behave td =
      { pipeline_status := finalizePipeline
          { initialPipelineStatus td with
            tasks_status := (initialPipelineStatus td).tasks_status
              ++ [failedExcTS i1 ("Target agent " ++ a ++ " not found.")
                   "AgentOrchestrationError"] }
          OverallState.FAILED
          ("Pipeline failed critically during task " ++ i1.command ++ ": "
            ++ ("Target agent " ++ a ++ " not found."))
          (failedExcTS i1 ("Target agent " ++ a ++ " not found.")
            "AgentOrchestrationError").error_details
        final_context := []
        invocations := [] } := by
    rw [runTaskPipeline, hseq, hstep]
  refine ⟨?_, ?_, ?_, ?_, ?_⟩
  · rw [hrun]
    rfl
  · rw [hrun]
    simp [finalizePipeline, initialPipelineStatus]
  · rw [hrun]
    simp [finalizePipeline, initialPipelineStatus]
  · rw [hrun]
    intro t ht
    simp [finalizePipeline, initialPipelineStatus] at ht
    rw [ht]
    rfl
  · rw [hrun]

/-- Witness for C3: a one-instruction pipeline targeting an unregistered
agent name. -/
theorem run_unknown_agent_spec_witness :
    (runTaskPipeline defaultRegistry constSuccessBehavior
        (wTd [wInstr "i1" "CMD_A" "ghost"])).pipeline_status.overall_status
        = OverallState.FAILED ∧
    (runTaskPipeline defaultRegistry constSuccessBehavior
        (wTd [wInstr "i1" "CMD_A" "ghost"])).pipeline_status.tasks_status
        = [failedExcTS (wInstr "i1" "CMD_A" "ghost")
            ("Target agent " ++ "ghost" ++ " not found.")
            "AgentOrchestrationError"] ∧
    (runTaskPipeline defaultRegistry constSuccessBehavior
        (wTd [wInstr "i1" "CMD_A" "ghost"])).pipeline_status.tasks_status.length
        = 1 ∧
    (∀ t ∈ (runTaskPipeline defaultRegistry constSuccessBehavior
        (wTd [wInstr "i1" "CMD_A" "ghost"])).pipeline_status.tasks_status,
        t.status = TaskState.FAILED) ∧
    (runTaskPipeline defaultRegistry constSuccessBehavior
        (wTd [wInstr "i1" "CMD_A" "ghost"])).invocations = [] :=
  run_unknown_agent_spec defaultRegistry constSuccessBehavior
    (wTd [wInstr "i1" "CMD_A" "ghost"]) (wInstr "i1" "CMD_A" "ghost") []
    rfl "ghost" rfl (by decide)

/-- A behaviour in which the image-processing agent reports FAILED and every
other agent returns SUCCESS. -/
def wFailBehavior : AgentBehavior := fun a i _ =>
  if a = "image_processing" then
    AgentOutcome.responds
      { instruction_id := i.instruction_id
        agent_name := a
        status := RespStatus.FAILED
        output_data := []
        error_message := some "simulated failure" }
  else
    AgentOutcome.responds
      { instruction_id := i.instruction_id
        agent_name := a
        status := RespStatus.SUCCESS
        output_data := []
        error_message := none }

/-- A behaviour in which the image-processing agent raises and every other
agent returns SUCCESS. -/
def wRaiseBehavior : AgentBehavior := fun a i _ =>
  if a = "image_processing" then
    AgentOutcome.raises "boom" "RuntimeError"
  else
    AgentOutcome.responds
      { instruction_id := i.instruction_id
        agent_name := a
        status := RespStatus.SUCCESS
        output_data := []
        error_message := none }

/-- A behaviour in which the image-processing agent returns the declared
third status PENDING and every other agent returns SUCCESS. -/
def wPendingBehavior : AgentBehavior := fun a i _ =>
  if a = "image_processing" then
    AgentOutcome.responds
      { instruction_id := i.instruction_id
        agent_name := a
        status := RespStatus.PENDING
        output_data := []
        error_message := some "still pending" }
  else
    AgentOutcome.responds
      { instruction_id := i.instruction_id
        agent_name := a
        status := RespStatus.SUCCESS
        output_data := []
        error_message := none }

/-- The concrete three-instruction pipeline used by the halting witnesses:
the second instruction targets the image-processing agent. -/
def wTd3 : TaskDefinition :=
  wTd [wInstr "i1" "CMD_A" "retrieval",
       wInstr "i2" "CMD_B" "image_processing",
       wInstr "i3" "CMD_C" "llm_inference"]

/-- Witness for C2: in `wTd3` under `wFailBehavior`, instruction 2 is the
first to report FAILED. -/
theorem run_first_reported_failure_spec_witness :
    ∃ r : AgentResponse, r.status = RespStatus.FAILED ∧
      (runTaskPipeline defaultRegistry wFailBehavior
          wTd3).pipeline_status.overall_status
          = OverallState.COMPLETED_WITH_ERRORS ∧
      (runTaskPipeline defaultRegistry wFailBehavior
          wTd3).pipeline_status.tasks_status
          = [wInstr "i1" "CMD_A" "retrieval"].map completedTS
            ++ [failedRespTS (wInstr "i2" "CMD_B" "image_processing") r] ∧
      (runTaskPipeline defaultRegistry wFailBehavior
          wTd3).pipeline_status.tasks_status.length
          = [wInstr "i1" "CMD_A" "retrieval"].length + 1 ∧
      (runTaskPipeline defaultRegistry wFailBehavior
          wTd3).pipeline_status.tasks_status.map (fun t => t.status)
        = List.replicate [wInstr "i1" "CMD_A" "retrieval"].length
            TaskState.COMPLETED ++ [TaskState.FAILED] ∧
      (runTaskPipeline defaultRegistry wFailBehavior
          wTd3).pipeline_status.fatal_error
          = some (ErrorDetails.agentResponse r) ∧
      (runTaskPipeline defaultRegistry wFailBehavior
          wTd3).invocations.map (fun v => v.instruction_id)
        = ([wInstr "i1" "CMD_A" "retrieval"]
            ++ [wInstr "i2" "CMD_B" "image_processing"]).map
              (fun i => i.instruction_id) ∧
      (∀ v ∈ (runTaskPipeline defaultRegistry wFailBehavior
          wTd3).invocations,
        v.instruction_id ∉ [wInstr "i3" "CMD_C" "llm_inference"].map
          (fun i => i.instruction_id)) :=
  run_first_reported_failure_spec defaultRegistry wFailBehavior
    [wInstr "i1" "CMD_A" "retrieval"] (wInstr "i2" "CMD_B" "image_processing")
    [wInstr "i3" "CMD_C" "llm_inference"] wTd3 rfl (by decide)
    (by
      intro i hi
      have hieq : i = wInstr "i1" "CMD_A" "retrieval" :=
        List.mem_singleton.mp hi
      rw [hieq]
      exact ⟨"retrieval", rfl, by decide, fun c => ⟨_, rfl, rfl⟩⟩)
    "image_processing" rfl (by decide)
    (fun c => ⟨_, rfl, rfl⟩)

/-- Witness for C8: in `wTd3` under `wRaiseBehavior`, the call for
instruction 2 raises. -/
theorem run_uncaught_exception_spec_witness :
    ∃ msg ty : String,
      (runTaskPipeline defaultRegistry wRaiseBehavior
          wTd3).pipeline_status.overall_status
          = OverallState.FAILED ∧
      (runTaskPipeline defaultRegistry wRaiseBehavior
          wTd3).pipeline_status.tasks_status
          = [wInstr "i1" "CMD_A" "retrieval"].map completedTS
            ++ [failedExcTS (wInstr "i2" "CMD_B" "image_processing") msg ty] ∧
      (runTaskPipeline defaultRegistry wRaiseBehavior
          wTd3).pipeline_status.tasks_status.length
          = [wInstr "i1" "CMD_A" "retrieval"].length + 1 ∧
      (runTaskPipeline defaultRegistry wRaiseBehavior
          wTd3).pipeline_status.tasks_status.map (fun t => t.status)
        = List.replicate [wInstr "i1" "CMD_A" "retrieval"].length
            TaskState.COMPLETED ++ [TaskState.FAILED] ∧
      (runTaskPipeline defaultRegistry wRaiseBehavior
          wTd3).pipeline_status.fatal_error
          = some (ErrorDetails.exception msg ty) ∧
      (runTaskPipeline defaultRegistry wRaiseBehavior
          wTd3).invocations.map (fun v => v.instruction_id)
        = ([wInstr "i1" "CMD_A" "retrieval"]
            ++ [wInstr "i2" "CMD_B" "image_processing"]).map
              (fun i => i.instruction_id) ∧
      (∀ v ∈ (runTaskPipeline defaultRegistry wRaiseBehavior
          wTd3).invocations,
        v.instruction_id ∉ [wInstr "i3" "CMD_C" "llm_inference"].map
          (fun i => i.instruction_id)) :=
  run_uncaught_exception_spec defaultRegistry wRaiseBehavior
    [wInstr "i1" "CMD_A" "retrieval"] (wInstr "i2" "CMD_B" "image_processing")
    [wInstr "i3" "CMD_C" "llm_inference"] wTd3 rfl (by decide)
    (by
      intro i hi
      have hieq : i = wInstr "i1" "CMD_A" "retrieval" :=
        List.mem_singleton.mp hi
      rw [hieq]
      exact ⟨"retrieval", rfl, by decide, fun c => ⟨_, rfl, rfl⟩⟩)
    "image_processing" rfl (by decide)
    (fun c => ⟨"boom", "RuntimeError", rfl⟩)

/-- Witness for C10: in `wTd3` under `wPendingBehavior`, instruction 2
returns PENDING and is treated as a reported failure. -/
theorem non_success_treated_as_failure_spec_witness :
    ∃ r : AgentResponse, r.status ≠ RespStatus.SUCCESS ∧
      (runTaskPipeline defaultRegistry wPendingBehavior
          wTd3).pipeline_status.overall_status
          = OverallState.COMPLETED_WITH_ERRORS ∧
      (runTaskPipeline defaultRegistry wPendingBehavior
          wTd3).pipeline_status.tasks_status
          = [wInstr "i1" "CMD_A" "retrieval"].map completedTS
            ++ [failedRespTS (wInstr "i2" "CMD_B" "image_processing") r] ∧
      (failedRespTS (wInstr "i2" "CMD_B" "image_processing") r).status
          = TaskState.FAILED ∧
      (failedRespTS (wInstr "i2" "CMD_B" "image_processing") r).message
          = r.error_message ∧
      (runTaskPipeline defaultRegistry wPendingBehavior
          wTd3).pipeline_status.fatal_error
          = some (ErrorDetails.agentResponse r) ∧
      (runTaskPipeline defaultRegistry wPendingBehavior
          wTd3).invocations.map (fun v => v.instruction_id)
        = ([wInstr "i1" "CMD_A" "retrieval"]
            ++ [wInstr "i2" "CMD_B" "image_processing"]).map
              (fun i => i.instruction_id) ∧
      (∀ v ∈ (runTaskPipeline defaultRegistry wPendingBehavior
          wTd3).invocations,
        v.instruction_id ∉ [wInstr "i3" "CMD_C" "llm_inference"].map
          (fun i => i.instruction_id)) :=
  non_success_treated_as_failure_spec defaultRegistry wPendingBehavior
    [wInstr "i1" "CMD_A" "retrieval"] (wInstr "i2" "CMD_B" "image_processing")
    [wInstr "i3" "CMD_C" "llm_inference"] wTd3 rfl (by decide)
    (by
      intro i hi
      have hieq : i = wInstr "i1" "CMD_A" "retrieval" :=
        List.mem_singleton.mp hi
      rw [hieq]
      exact ⟨"retrieval", rfl, by decide, fun c => ⟨_, rfl, rfl⟩⟩)
    "image_processing" rfl (by decide)
    (fun c => ⟨_, rfl, by decide⟩)

/-- The context of the spec's resolution example:
`{"a": {"b": [10, 20, {"c": 99}]}}`. -/
def ctxC4 : Ctx :=
  [("a", Value.vdict [("b", Value.vlist
    [Value.vint 10, Value.vint 20, Value.vdict [("c", Value.vint 99)]])])]

/-- C4: against `{"a": {"b": [10, 20, {"c": 99}]}}`, the reference
`{"$from_context": "a.b.2.c"}` resolves to `99`, and the out-of-range
reference `{"$from_context": "a.b.5"}` soft-fails, yielding the original
unresolved marker; resolution is a total function, so no exception
escapes. -/
theorem path_resolution_examples_spec :
    resolveParamValue ctxC4 (marker "a.b.2.c") = Value.vint 99 ∧
    resolveParamValue ctxC4 (marker "a.b.5") = marker "a.b.5" :=
  ⟨rfl, rfl⟩

/-- A pipeline context holding, under the well-known key, the typed record
the orchestrator stores after a successful retrieval (lines 426-431): a
structured record whose field `series_volumes` is populated. -/
def ctxC5 : Ctx :=
  [("retrieval_info", Value.validated RecordType.retrievedDataInfo
    (Value.vdict [("series_volumes", Value.vlist [Value.vstr "vol0"])]))]

/-- C5 evaluated at the failing input: the resolver of lines 43-60 tests
only `isinstance(.., dict)` and `isinstance(.., list)`, so a structured
record stored in the context cannot be traversed by field name — the path
`retrieval_info.series_volumes` (the very shape the repository's own
pipeline definition in `io_pipeline.py` uses) soft-fails and substitutes the
original marker instead of returning the field's value.  The first conjunct
shows the record is present and carries the field; the second shows the
resolution result. -/
theorem record_field_access_soft_fails :
    ctxLookup ctxC5 "retrieval_info"
      = some (Value.validated RecordType.retrievedDataInfo
          (Value.vdict [("series_volumes",
            Value.vlist [Value.vstr "vol0"])])) ∧
    resolveParamValue ctxC5 (marker "retrieval_info.series_volumes")
      = marker "retrieval_info.series_volumes" :=
  ⟨rfl, rfl⟩

/-- C9: every invocation of the reporting agent with command
GENERATE_DIAGNOSTIC_REPORT returns a FAILED response.  Whatever the earlier
fallible steps of the command do (`pre`, lines 258-333), every non-raising
path reaches the report-path construction at line 338, which evaluates the
module-level name `os`; the module never imports `os`, so a `NameError` is
raised, and the base `Agent.execute_instruction` converts it into a FAILED
response (lines 80-91), leaving the success branch unreachable. -/
theorem reporting_agent_always_failed_spec (pre : Except PyError Unit)
    (instruction : AgentInstruction) (ctx : Ctx)
    (hcmd : instruction.command = "GENERATE_DIAGNOSTIC_REPORT") :
    (executeInstruction "ReportingAgent" (reportingProcessCommand pre)
      instruction ctx).status = RespStatus.FAILED := by
  unfold executeInstruction reportingProcessCommand
  rw [hcmd]
  cases pre with
  | ok u => rfl
  | error e => rfl

/-- Witness for C9 at a concrete instruction with all earlier steps
succeeding. -/
theorem reporting_agent_always_failed_spec_witness :
    (executeInstruction "ReportingAgent"
      (reportingProcessCommand (Except.ok ()))
      (wInstr "i9" "GENERATE_DIAGNOSTIC_REPORT" "reporting") []).status
      = RespStatus.FAILED :=
  reporting_agent_always_failed_spec (Except.ok ())
    (wInstr "i9" "GENERATE_DIAGNOSTIC_REPORT" "reporting") [] rfl

/-- Setting a key makes it retrievable with the written value. -/
lemma ctxLookup_ctxSet_self (ctx : Ctx) (k : String) (v : Value) :
    ctxLookup (ctxSet ctx k v) k = some v := by
  induction ctx with
  | nil => simp [ctxSet, ctxLookup, dictLookup]
  | cons kv rest ihr =>
    by_cases h : kv.1 = k
    · simp [ctxSet, h, ctxLookup, dictLookup]
    · have hset : ctxSet (kv :: rest) k v = kv :: ctxSet rest k v := by
        show (if kv.1 = k then (k, v) :: rest else kv :: ctxSet rest k v)
          = kv :: ctxSet rest k v
        rw [if_neg h]
      rw [hset]
      show (if kv.1 = k then some kv.2 else dictLookup (ctxSet rest k v) k)
        = some v
      rw [if_neg h]
      exact ihr

/-- Setting a key leaves every other key unchanged. -/
lemma ctxLookup_ctxSet_ne (ctx : Ctx) (k k2 : String) (v : Value)
    (h : k ≠ k2) : ctxLookup (ctxSet ctx k v) k2 = ctxLookup ctx k2 := by
  induction ctx with
  | nil => simp [ctxSet, ctxLookup, dictLookup, h]
  | cons kv rest ihr =>
    by_cases hkv : kv.1 = k
    · have hset : ctxSet (kv :: rest) k v = (k, v) :: rest := by
        show (if kv.1 = k then (k, v) :: rest else kv :: ctxSet rest k v)
          = (k, v) :: rest
        rw [if_pos hkv]
      rw [hset]
      show (if k = k2 then some v else dictLookup rest k2)
        = if kv.1 = k2 then some kv.2 else dictLookup rest k2
      rw [if_neg h, if_neg (by rw [hkv]; exact h)]
    · have hset : ctxSet (kv :: rest) k v = kv :: ctxSet rest k v := by
        show (if kv.1 = k then (k, v) :: rest else kv :: ctxSet rest k v)
          = kv :: ctxSet rest k v
        rw [if_neg hkv]
      rw [hset]
      show (if kv.1 = k2 then some kv.2 else dictLookup (ctxSet rest k v) k2)
        = if kv.1 = k2 then some kv.2 else dictLookup rest k2
      by_cases hkv2 : kv.1 = k2
      · rw [if_pos hkv2, if_pos hkv2]
      · rw [if_neg hkv2, if_neg hkv2]
        exact ihr

/-- One step of the merge fold. -/
lemma mergeOutput_cons (ctx : Ctx) (kv : String × Value) (rest : Ctx) :
    mergeOutput ctx (kv :: rest)
      = mergeOutput (ctxSet ctx kv.1 (reconstructValue kv.1 kv.2)) rest := rfl

/-- Merging an output that does not mention a key leaves that key
unchanged. -/
lemma mergeOutput_lookup_notin (output : Ctx) :
    ∀ (ctx : Ctx) (k : String), k ∉ output.map Prod.fst →
    ctxLookup (mergeOutput ctx output) k = ctxLookup ctx k := by
  induction output with
  | nil => intro ctx k _; rfl
  | cons kv rest ihr =>
    intro ctx k h
    rw [List.map_cons, List.mem_cons] at h
    push_neg at h
    rw [mergeOutput_cons, ihr _ k h.2, ctxLookup_ctxSet_ne _ _ _ _
      (fun hc => h.1 hc.symm)]

/-- Every key of the merged output is retrievable afterwards, holding its
reconstructed value. -/
lemma mergeOutput_lookup_mem (output : Ctx) :
    ∀ (ctx : Ctx) (k : String) (v : Value),
    (output.map Prod.fst).Nodup → (k, v) ∈ output →
    ctxLookup (mergeOutput ctx output) k = some (reconstructValue k v) := by
  induction output with
  | nil => intro ctx k v _ hmem; cases hmem
  | cons kv rest ihr =>
    intro ctx k v hnodup hmem
    rw [List.map_cons, List.nodup_cons] at hnodup
    obtain ⟨hnotin, hnodup2⟩ := hnodup
    rcases List.mem_cons.mp hmem with heq | hmemr
    · have hk1 : kv.1 = k := by rw [← heq]
      have hk2 : kv.2 = v := by rw [← heq]
      rw [mergeOutput_cons, hk1, hk2,
        mergeOutput_lookup_notin rest _ k (by rw [← hk1]; exact hnotin),
        ctxLookup_ctxSet_self]
    · exact ihr _ k v hnodup2 hmemr

/-- C6: after a successful response, every key of its `output_data` is
merged into the pipeline context; exactly the four well-known keys store the
canonical structured-record type validated from the raw value, and every
other key stores the raw value unchanged (lines 425-453). -/
theorem merge_output_typed_spec (ctx output : Ctx)
    (hnodup : (output.map Prod.fst).Nodup) :
    ∀ k v, (k, v) ∈ output →
      ctxLookup (mergeOutput ctx output) k = some (reconstructValue k v) ∧
      (k = "retrieval_info" → reconstructValue k v
        = Value.validated RecordType.retrievedDataInfo v) ∧
      (k = "segmentation_result" → reconstructValue k v
        = Value.validated RecordType.imageSegmentationResult v) ∧
      (k = "llm_analysis_result" → reconstructValue k v
        = Value.validated RecordType.llmAnalysisResult v) ∧
      (k = "report_summary" → reconstructValue k v
        = Value.validated RecordType.diagnosticReport v) ∧
      (k ∉ (["retrieval_info", "segmentation_result", "llm_analysis_result",
        "report_summary"] : List String) → reconstructValue k v = v) := by
  intro k v hmem
  refine ⟨mergeOutput_lookup_mem output ctx k v hnodup hmem,
    ?_, ?_, ?_, ?_, ?_⟩
  · intro h
    rw [h]
    rfl
  · intro h
    rw [h]
    rfl
  · intro h
    rw [h]
    rfl
  · intro h
    rw [h]
    rfl
  · intro h
    simp only [List.mem_cons, List.mem_singleton, not_or] at h
    obtain ⟨h1, h2, h3, h4, _⟩ := h
    simp [reconstructValue, h1, h2, h3, h4]

/-- Witness for C6: a two-key output merged into the empty context — the
well-known key is stored as a typed record, the other key raw. -/
theorem merge_output_typed_spec_witness :
    ctxLookup (mergeOutput [] [("retrieval_info", Value.vdict []),
        ("other", Value.vint 5)]) "retrieval_info"
      = some (reconstructValue "retrieval_info" (Value.vdict [])) ∧
    ("retrieval_info" = "retrieval_info" →
      reconstructValue "retrieval_info" (Value.vdict [])
        = Value.validated RecordType.retrievedDataInfo (Value.vdict [])) ∧
    ("retrieval_info" = "segmentation_result" →
      reconstructValue "retrieval_info" (Value.vdict [])
        = Value.validated RecordType.imageSegmentationResult
            (Value.vdict [])) ∧
    ("retrieval_info" = "llm_analysis_result" →
      reconstructValue "retrieval_info" (Value.vdict [])
        = Value.validated RecordType.llmAnalysisResult (Value.vdict [])) ∧
    ("retrieval_info" = "report_summary" →
      reconstructValue "retrieval_info" (Value.vdict [])
        = Value.validated RecordType.diagnosticReport (Value.vdict [])) ∧
    ("retrieval_info" ∉ (["retrieval_info", "segmentation_result",
        "llm_analysis_result", "report_summary"] : List String) →
      reconstructValue "retrieval_info" (Value.vdict [])
        = Value.vdict []) :=
  merge_output_typed_spec [] [("retrieval_info", Value.vdict []),
      ("other", Value.vint 5)] (by decide)
    "retrieval_info" (Value.vdict []) (List.mem_cons_self _ _)

/-- Key-set inclusion between two pipeline contexts. -/
def KeysSub (c1 c2 : Ctx) : Prop := ∀ k, k ∈ ctxKeys c1 → k ∈ ctxKeys c2

/-- Key-set inclusion is reflexive. -/
lemma keysSub_refl (c : Ctx) : KeysSub c c := fun _ h => h

/-- Key-set inclusion is transitive. -/
lemma keysSub_trans {a b c : Ctx} (h1 : KeysSub a b) (h2 : KeysSub b c) :
    KeysSub a c := fun k hk => h2 k (h1 k hk)

/-- Writing a key never removes a key. -/
lemma ctxKeys_ctxSet_mono (ctx : Ctx) (k2 : String) (v : Value) :
    KeysSub ctx (ctxSet ctx k2 v) := by
  induction ctx with
  | nil =>
    intro k hk
    simp [ctxKeys] at hk
  | cons kv rest ihr =>
    intro k hk
    simp only [ctxKeys, List.map_cons, List.mem_cons] at hk
    by_cases h : kv.1 = k2
    · have hset : ctxSet (kv :: rest) k2 v = (k2, v) :: rest := by
        show (if kv.1 = k2 then (k2, v) :: rest else kv :: ctxSet rest k2 v)
          = (k2, v) :: rest
        rw [if_pos h]
      rw [hset]
      simp only [ctxKeys, List.map_cons, List.mem_cons]
      rcases hk with h1 | h1
      · exact Or.inl (h1.trans h)
      · exact Or.inr h1
    · have hset : ctxSet (kv :: rest) k2 v = kv :: ctxSet rest k2 v := by
        show (if kv.1 = k2 then (k2, v) :: rest else kv :: ctxSet rest k2 v)
          = kv :: ctxSet rest k2 v
        rw [if_neg h]
      rw [hset]
      simp only [ctxKeys, List.map_cons, List.mem_cons]
      rcases hk with h1 | h1
      · exact Or.inl h1
      · exact Or.inr (ihr k h1)

/-- Merging a response output never removes a key. -/
lemma mergeOutput_keys_mono (output : Ctx) :
    ∀ ctx : Ctx, KeysSub ctx (mergeOutput ctx output) := by
  induction output with
  | nil => intro ctx; exact keysSub_refl ctx
  | cons kv rest ihr =>
    intro ctx
    rw [mergeOutput_cons]
    exact keysSub_trans (ctxKeys_ctxSet_mono ctx kv.1 _) (ihr _)

/-- One-step equation: an instruction with no target agent fails like an
unknown agent (`None` is not a registry key). -/
lemma runLoop_cons_no_target (reg : List String) (behave : AgentBehavior)
    (i : AgentInstruction) (rest : List AgentInstruction) (ps : PipelineStatus)
    (ctx : Ctx) (inv : List Invocation)
    (h1 : i.target_agent = none) :
    runLoop reg behave (i :: rest) ps ctx inv =
      exceptionStep (addTaskStatus ps (inProgressTS i)) i ctx inv
        ("Target agent " ++ "None" ++ " not found.")
        "AgentOrchestrationError" := by
  conv_lhs => rw [runLoop]
  simp only [h1]
  rfl

/-- Invariant of the instruction loop: the contexts passed to successive
agent invocations grow monotonically in keys, and every invocation context
is key-included in the final context. -/
lemma runLoop_context_invariant (reg : List String) (behave : AgentBehavior)
    (insts : List AgentInstruction) :
    ∀ (ps : PipelineStatus) (ctx : Ctx) (inv : List Invocation),
    inv.Pairwise (fun a b => KeysSub a.context b.context) →
    (∀ w ∈ inv, KeysSub w.context ctx) →
    ((runLoop reg behave insts ps ctx inv).invocations.Pairwise
      (fun a b => KeysSub a.context b.context) ∧
     ∀ w ∈ (runLoop reg behave insts ps ctx inv).invocations,
       KeysSub w.context
         (runLoop reg behave insts ps ctx inv).final_context) := by
  induction insts with
  | nil =>
    intro ps ctx inv hp hto
    exact ⟨hp, hto⟩
  | cons i rest ihr =>
    intro ps ctx inv hp hto
    cases hta : i.target_agent with
    | none =>
      rw [runLoop_cons_no_target reg behave i rest ps ctx inv hta]
      exact ⟨hp, hto⟩
    | some a =>
      have hp1 : (inv ++ [(⟨a, i.instruction_id, ctx⟩ : Invocation)]).Pairwise
          (fun x y => KeysSub x.context y.context) := by
        rw [List.pairwise_append]
        refine ⟨hp, List.pairwise_singleton _ _, ?_⟩
        intro x hx y hy
        rw [List.mem_singleton.mp hy]
        exact hto x hx
      have hto1 : ∀ w ∈ (inv ++ [(⟨a, i.instruction_id, ctx⟩ : Invocation)]),
          KeysSub w.context ctx := by
        intro w hw
        rcases List.mem_append.mp hw with h1 | h1
        · exact hto w h1
        · rw [List.mem_singleton.mp h1]
          exact keysSub_refl ctx
      by_cases hmem : a ∈ reg
      · cases hb : behave a i ctx with
        | responds r =>
          by_cases hst : r.status = RespStatus.SUCCESS
          · rw [runLoop_cons_success reg behave i rest ps ctx inv a r
              hta hmem hb hst]
            exact ihr _ _ _ hp1
              (fun w hw => keysSub_trans (hto1 w hw)
                (mergeOutput_keys_mono r.output_data ctx))
          · rw [runLoop_cons_reported_failure reg behave i rest ps ctx inv a r
              hta hmem hb hst]
            exact ⟨hp1, hto1⟩
        | raises msg ty =>
          rw [runLoop_cons_raises reg behave i rest ps ctx inv a msg ty
            hta hmem hb]
          exact ⟨hp1, hto1⟩
      · rw [runLoop_cons_unknown_agent reg behave i rest ps ctx inv a
          hta hmem]
        exact ⟨hp, hto⟩

/-- Handler `_process_command` of the first example agent: outputs `{"x": 1}`. -/
def exampleProcess1 (_command : String) (_resolved : Ctx) (_ctx : Ctx) :
    Except PyError Ctx :=
  Except.ok [("x", Value.vint 1)]

/-- Handler `_process_command` of the second example agent: echoes back the resolved
parameters it received, making the resolution observable in the context. -/
def exampleProcess2 (_command : String) (resolved : Ctx) (_ctx : Ctx) :
    Except PyError Ctx :=
  Except.ok [("echo", Value.vdict resolved)]

/-- Example behaviour for the accumulation scenario: both agents run the base
`Agent.execute_instruction` (with parameter resolution) over their command
handlers. -/
def exampleBehave : AgentBehavior := fun a i c =>
  if a = "retrieval" then
    AgentOutcome.responds (executeInstruction a exampleProcess1 i c)
  else
    AgentOutcome.responds (executeInstruction a exampleProcess2 i c)

/-- Second instruction of the accumulation scenario: its parameter
references the key `x` produced by the first instruction. -/
def exampleInstr2 : AgentInstruction :=
  { instruction_id := "e2"
    command := "CMD_B"
    parameters := [("p", marker "x")]
    target_agent := some "image_processing"
    priority := 0 }

/-- The two-instruction accumulation pipeline of the spec example. -/
def exampleTd : TaskDefinition :=
  wTd [wInstr "e1" "CMD_A" "retrieval", exampleInstr2]

/-- C7: within one run the context grows monotonically — every key visible
to an invocation is visible to all later invocations and in the final
context — and in the concrete accumulation scenario instruction 1 succeeds
with output `{"x": 1}`, instruction 2 is invoked with a context containing
`x` (absent before instruction 1 ran), and its parameter referencing `x`
resolves to `1`, observable both via `resolveParameters` on the recorded
invocation contexts and via the echoed output in the final context. -/
theorem context_monotone_spec (reg : List String) (behave : AgentBehavior)
    (td : TaskDefinition) :
    ((runTaskPipeline reg behave td).invocations.Pairwise
      (fun a b => KeysSub a.context b.context) ∧
     ∀ w ∈ (runTaskPipeline reg behave td).invocations,
       KeysSub w.context (runTaskPipeline reg behave td).final_context) ∧
    (runTaskPipeline defaultRegistry exampleBehave exampleTd).invocations.map
        (fun w => w.context)
      = [[], [("x", Value.vint 1)]] ∧
    resolveParameters [] exampleInstr2.parameters = [("p", marker "x")] ∧
    resolveParameters [("x", Value.vint 1)] exampleInstr2.parameters
      = [("p", Value.vint 1)] ∧
    ctxLookup (runTaskPipeline defaultRegistry exampleBehave
        exampleTd).final_context "echo"
      = some (Value.vdict [("p", Value.vint 1)]) ∧
    (runTaskPipeline defaultRegistry exampleBehave
        exampleTd).pipeline_status.overall_status
      = OverallState.COMPLETED_SUCCESS :=
  ⟨runLoop_context_invariant reg behave td.sequence_of_instructions
      (initialPipelineStatus td) [] [] (List.Pairwise.nil)
      (fun w hw => absurd hw (List.not_mem_nil w)),
   rfl, rfl, rfl, rfl, rfl⟩

/-- Witness for C7: the key `x`, merged by instruction 1 of the accumulation
scenario, is visible in the final context of that run. -/
theorem context_monotone_spec_witness :
    "x" ∈ ctxKeys (runTaskPipeline defaultRegistry exampleBehave
      exampleTd).final_context := by
  have h := (context_monotone_spec defaultRegistry exampleBehave
    exampleTd).1.2
  have hinv : (runTaskPipeline defaultRegistry exampleBehave
      exampleTd).invocations
      = [⟨"retrieval", "e1", []⟩,
         ⟨"image_processing", "e2", [("x", Value.vint 1)]⟩] := rfl
  refine h ⟨"image_processing", "e2", [("x", Value.vint 1)]⟩ ?_ "x" ?_
  · rw [hinv]
    exact List.mem_cons_of_mem _ (List.mem_cons_self _ _)
  · show "x" ∈ ctxKeys [("x", Value.vint 1)]
    exact List.mem_singleton.mpr rfl

end Harmonizer
